/-
Verification of the epoch_explorers RAG system against its specification.

This file gives a shallow embedding, in Lean 4, of the parts of the code base
that the specification's claims are about:

* `src/rag/agents/healing_agent/rl_healing_agent.py` — the ε-greedy RL healing
  agent (reward observation, ε decay, greedy action scoring);
* `src/rag/agents/langgraph_agent/langgraph_rag_agent.py` — the
  check-optimization node and its conditional routing;
* `src/rag/tools/retrieval_tools.py` — the reranking step;
* `src/rag/tools/ingestion_tools.py` — chunking and vector-store persistence;
* `src/rag/chat/chat_interface.py` — command parsing, session handling,
  permission checks and doc-id generation;
* `src/rag/guardrails/guardrails_service.py` — the pattern-based security
  guardrail and the comprehensive response validation.

Python floats are modelled as exact rationals (`ℚ`); Python exceptions as
`Except`; Python `None`-able values as `Option`.  External services (LLM,
vector store, SQLite, the LangChain text splitter, the clock) are inputs to
the embedded functions, never hard-coded results.
-/
import Mathlib

namespace RLAgent

/-- Action names of the healing agent: `SKIP, OPTIMIZE, REINDEX, RE_EMBED`
(the four keys of `action_history` in `rl_healing_agent.py`). -/
inductive ActionName where
  | SKIP
  | OPTIMIZE
  | REINDEX
  | RE_EMBED
deriving DecidableEq, Repr

/-- Per-action statistics, one entry of `self.action_history`:
`{'count': 0, 'total_reward': 0, 'avg_reward': 0}`. -/
structure ActionStats where
  count : ℕ
  total_reward : ℚ
  avg_reward : ℚ
deriving DecidableEq, Repr

/-- The `RLState` dataclass of `rl_healing_agent.py`. -/
structure RLState where
  quality_score : ℚ
  query_accuracy : ℚ
  chunk_count : ℤ
  avg_token_cost : ℚ
  reindex_count : ℤ
  last_healing_delta : ℚ
  query_frequency : ℤ
  user_feedback : ℚ
deriving DecidableEq, Repr

/-- The `RLAction` dataclass (params omitted as an opaque payload is not
needed by any claim; the action name and the estimates are kept). -/
structure RLAction where
  action : ActionName
  estimated_improvement : ℚ
  estimated_cost : ℚ
  confidence : ℚ
deriving DecidableEq, Repr

/-- The mutable learning state of `RLHealingAgent`: exploration rate and the
action-history table.  `learning_rate` and `discount_factor` are kept for
completeness (the code sets but never reads them in the modelled paths). -/
structure Agent where
  epsilon : ℚ
  learning_rate : ℚ
  discount_factor : ℚ
  history : ActionName → ActionStats

/-- The fresh agent built by `__init__(db_path, initial_epsilon=0.3)`. -/
def Agent.init (initial_epsilon : ℚ := 0.3) : Agent where
  epsilon := initial_epsilon
  learning_rate := 0.1
  discount_factor := 0.9
  history := fun _ => ⟨0, 0, 0⟩

/-- The body of `observe_reward`: bump `count`, `total_reward`, recompute
`avg_reward = total_reward / count`, and decay
`epsilon = max(0.05, epsilon * 0.995)`.  (The trailing database logging call
`_log_rl_decision` only writes an audit row and is not part of the agent
state.) -/
def observeReward (ag : Agent) (a : ActionName) (actual_reward : ℚ) : Agent :=
  let s := ag.history a
  let count := s.count + 1
  let total := s.total_reward + actual_reward
  { ag with
      history := fun x => if x = a then ⟨count, total, total / (count : ℚ)⟩ else ag.history x
      epsilon := max 0.05 (ag.epsilon * 0.995) }

/-- Trace of `epsilon` values after each `observe_reward` call of a run. -/
def epsTrace (ag : Agent) : List (ActionName × ℚ) → List ℚ
  | [] => []
  | c :: cs =>
      let ag2 := observeReward ag c.1 c.2
      ag2.epsilon :: epsTrace ag2 cs

/-- The state-conditional adjustment added to `avg_reward` inside
`_get_best_action`, one branch per action. -/
def adjustment (st : RLState) : ActionName → ℚ
  | .SKIP => if st.quality_score > 0.75 then 1.0 else -1.0
  | .OPTIMIZE =>
      if st.quality_score < 0.6 ∧ st.avg_token_cost < 2000 then 1.5
      else if st.quality_score < 0.6 then 0.8
      else -0.5
  | .REINDEX =>
      if st.reindex_count < 3 then
        (if st.quality_score < 0.65 then 1.0 else -0.5)
      else -1.0
  | .RE_EMBED =>
      if st.quality_score < 0.5 then 2.0
      else if st.avg_token_cost < 1000 then 0.5
      else -1.5

/-- The score `_get_best_action` assigns to one action: the neutral `0.5`
when the action has never been tried, else `avg_reward + adjustment`. -/
def actionScore (hist : ActionName → ActionStats) (st : RLState) (a : ActionName) : ℚ :=
  if (hist a).count = 0 then 0.5 else (hist a).avg_reward + adjustment st a

/-- Python `max(iterable, key=...)`: fold keeping the current maximum,
replacing it only on a strictly larger key (so the first maximiser in
iteration order wins). -/
def pyMaxBy (key : ActionName → ℚ) (cur : ActionName) : List ActionName → ActionName
  | [] => cur
  | x :: xs => pyMaxBy key (if key cur < key x then x else cur) xs

/-- The body of `_get_best_action`: score the four actions in the dict's
insertion order `SKIP, OPTIMIZE, REINDEX, RE_EMBED` and take
`max(action_scores, key=action_scores.get)`. -/
def getBestAction (hist : ActionName → ActionStats) (st : RLState) : ActionName :=
  pyMaxBy (actionScore hist st) .SKIP [.OPTIMIZE, .REINDEX, .RE_EMBED]

/-- Scoring rule as the claim states it, written from the claim's words:
score 0.5 on zero count, otherwise `avg_reward` plus the listed adjustment. -/
def actionScoreSpec (hist : ActionName → ActionStats) (st : RLState) (a : ActionName) : ℚ :=
  if (hist a).count = 0 then 0.5 else
    (hist a).avg_reward +
      (match a with
       | .SKIP => if st.quality_score > 0.75 then 1.0 else -1.0
       | .OPTIMIZE =>
           if st.quality_score < 0.6 ∧ st.avg_token_cost < 2000 then 1.5
           else if st.quality_score < 0.6 then 0.8
           else -0.5
       | .REINDEX =>
           if st.reindex_count < 3 then
             (if st.quality_score < 0.65 then 1.0 else -0.5)
           else -1.0
       | .RE_EMBED =>
           if st.quality_score < 0.5 then 2.0
           else if st.avg_token_cost < 1000 then 0.5
           else -1.5)

/-- One decay step never drops below the floor. -/
lemma eps_floor (e : ℚ) : (0.05 : ℚ) ≤ max 0.05 (e * 0.995) :=
  le_max_left _ _

/-- One decay step is non-increasing once above the floor. -/
lemma eps_step_le (e : ℚ) (he : (0.05 : ℚ) ≤ e) : max 0.05 (e * 0.995) ≤ e := by
  have h0 : (0 : ℚ) ≤ e := le_trans (by norm_num) he
  have : e * 0.995 ≤ e := by nlinarith
  exact max_le he this

/-- Along any run of reward observations, once ε is at least the floor the
whole ε-trace is pointwise at least `0.05` and is non-increasing. -/
lemma epsTrace_invariant (calls : List (ActionName × ℚ)) :
    ∀ ag : Agent, (0.05 : ℚ) ≤ ag.epsilon →
      List.Chain' (fun x y => y ≤ x) (ag.epsilon :: epsTrace ag calls) ∧
      ∀ x ∈ epsTrace ag calls, (0.05 : ℚ) ≤ x := by
  induction calls with
  | nil => intro ag _; simp [epsTrace]
  | cons c cs ih =>
      intro ag hag
      have hstep : (observeReward ag c.1 c.2).epsilon = max 0.05 (ag.epsilon * 0.995) := rfl
      have hfloor : (0.05 : ℚ) ≤ (observeReward ag c.1 c.2).epsilon := by
        rw [hstep]; exact eps_floor _
      obtain ⟨hchain, hmem⟩ := ih (observeReward ag c.1 c.2) hfloor
      constructor
      · refine List.Chain'.cons ?_ hchain
        rw [hstep]; exact eps_step_le _ hag
      · intro x hx
        rcases List.mem_cons.mp hx with h | h
        · rw [h]; exact hfloor
        · exact hmem x h

/-- The seed of the Python `max` fold never beats the result. -/
lemma key_le_pyMaxBy (key : ActionName → ℚ) :
    ∀ l cur, key cur ≤ key (pyMaxBy key cur l) := by
  intro l
  induction l with
  | nil => intro cur; exact le_refl _
  | cons x xs ih =>
      intro cur
      have h := ih (if key cur < key x then x else cur)
      refine le_trans ?_ h
      by_cases hc : key cur < key x
      · simp only [hc, if_pos]; exact le_of_lt hc
      · simp only [hc, if_neg, not_false_iff]; exact le_refl _

/-- Every listed element's key is bounded by the Python `max` fold result. -/
lemma mem_key_le_pyMaxBy (key : ActionName → ℚ) :
    ∀ l cur x, x ∈ l → key x ≤ key (pyMaxBy key cur l) := by
  intro l
  induction l with
  | nil => intro cur x hx; cases hx
  | cons y ys ih =>
      intro cur x hx
      rcases List.mem_cons.mp hx with h | h
      · subst h
        refine le_trans ?_ (key_le_pyMaxBy key ys (if key cur < key x then x else cur))
        by_cases hc : key cur < key x
        · simp only [hc, if_pos]; exact le_refl _
        · simp only [hc, if_neg, not_false_iff]
          exact le_of_not_lt hc
      · exact ih _ x h

end RLAgent

open RLAgent in
/-- C2: every `observe_reward` call sets
`epsilon := max(0.05, epsilon * 0.995)`; starting from any ε in
`[0.05, 1.0]`, the ε-trace of a run is non-increasing and every value stays
at least `0.05`. -/
theorem C2_epsilon_decay_floor (ag : Agent) (calls : List (ActionName × ℚ))
    (h1 : (0.05 : ℚ) ≤ ag.epsilon) (_h2 : ag.epsilon ≤ 1) :
    (∀ a r, (observeReward ag a r).epsilon = max 0.05 (ag.epsilon * 0.995)) ∧
    List.Chain' (fun x y => y ≤ x) (ag.epsilon :: epsTrace ag calls) ∧
    (∀ x ∈ epsTrace ag calls, (0.05 : ℚ) ≤ x) := by
  obtain ⟨hchain, hmem⟩ := epsTrace_invariant calls ag h1
  exact ⟨fun _ _ => rfl, hchain, hmem⟩

open RLAgent in
/-- Witness for C2 at the default initial agent (ε = 0.3) and a two-step run. -/
theorem C2_epsilon_decay_floor_witness :
    (0.05 : ℚ) ≤ (Agent.init 0.3).epsilon ∧ (Agent.init 0.3).epsilon ≤ 1 ∧
    ((∀ a r, (observeReward (Agent.init 0.3) a r).epsilon =
        max 0.05 ((Agent.init 0.3).epsilon * 0.995)) ∧
     List.Chain' (fun x y => y ≤ x)
       ((Agent.init 0.3).epsilon ::
         epsTrace (Agent.init 0.3) [(.SKIP, 1), (.OPTIMIZE, -2)]) ∧
     (∀ x ∈ epsTrace (Agent.init 0.3) [(.SKIP, 1), (.OPTIMIZE, -2)],
        (0.05 : ℚ) ≤ x)) :=
  ⟨by norm_num [Agent.init], by norm_num [Agent.init],
   C2_epsilon_decay_floor (Agent.init 0.3) [(.SKIP, 1), (.OPTIMIZE, -2)]
     (by norm_num [Agent.init]) (by norm_num [Agent.init])⟩

open RLAgent in
/-- C3: in a greedy (non-exploration) selection, `_get_best_action` scores
each action exactly as the claim's formula states (cold-start 0.5, otherwise
`avg_reward` plus the state-conditional adjustment) and returns an action
whose score is maximal among `SKIP, OPTIMIZE, REINDEX, RE_EMBED`. -/
theorem C3_greedy_argmax (hist : ActionName → ActionStats) (st : RLState) :
    (∀ a, actionScoreSpec hist st a = actionScore hist st a) ∧
    (∀ a, actionScore hist st a ≤ actionScore hist st (getBestAction hist st)) := by
  constructor
  · intro a
    cases a <;> simp [actionScore, actionScoreSpec, adjustment]
  · intro a
    cases a with
    | SKIP => exact key_le_pyMaxBy _ _ _
    | OPTIMIZE => exact mem_key_le_pyMaxBy _ _ _ _ (by simp)
    | REINDEX => exact mem_key_le_pyMaxBy _ _ _ _ (by simp)
    | RE_EMBED => exact mem_key_le_pyMaxBy _ _ _ _ (by simp)


namespace Workflow

/-- The recommendation dict returned by `RLHealingAgent.recommend_healing`
(the fields `check_optimization_needed` reads). -/
structure Recommendation where
  recommended_action : String
  reasoning : String
deriving DecidableEq, Repr

/-- Outcome of the `check_optimization_needed` node: the computed retrieval
quality and the recorded `should_optimize` flag. -/
structure CheckOutcome where
  quality : ℚ
  should_optimize : Bool
deriving DecidableEq, Repr

/-- Python truthiness of `state.get("doc_id")`: missing (`None`) and the
empty string are falsy. -/
def strTruthy : Option String → Bool
  | none => false
  | some s => !(s == "")

/-- The fallback heuristic of `check_optimization_needed`:
`quality < 0.6 or num_results < 3`. -/
def fallbackHeuristic (quality : ℚ) (numReranked : ℕ) : Bool :=
  decide (quality < 0.6) || decide (numReranked < 3)

/-- The body of `check_optimization_needed` in `langgraph_rag_agent.py`.
`numReranked` is `len(state["reranked_context"]["reranked_context"])`.
The healing agent is an optional oracle `doc_id → quality → recommendation`
whose call may raise (`Except.error`); the node uses the fallback heuristic
when the agent is absent, `doc_id` is falsy, or the call raises. -/
def checkOptimizationNeeded (numReranked : ℕ)
    (agent : Option (String → ℚ → Except String Recommendation))
    (docId : Option String) : CheckOutcome :=
  let quality : ℚ := min 1 ((numReranked : ℚ) / 5)
  match agent, docId with
  | some f, some d =>
      if strTruthy (some d) then
        match f d quality with
        | .ok rec => ⟨quality, !(rec.recommended_action == "SKIP")⟩
        | .error _ => ⟨quality, fallbackHeuristic quality numReranked⟩
      else ⟨quality, fallbackHeuristic quality numReranked⟩
  | _, _ => ⟨quality, fallbackHeuristic quality numReranked⟩

/-- The conditional router `route_to_optimization`:
`"optimize_context" if state.get("should_optimize", False) else
"answer_question"`. -/
def routeToOptimization (should_optimize : Bool) : String :=
  if should_optimize then "optimize_context" else "answer_question"

end Workflow

open Workflow in
/-- C4: the check-optimization node computes `quality = min(1, n/5)`; with an
agent present and a truthy `doc_id` it records
`should_optimize = (recommended action ≠ SKIP)`, in every other case
(absent agent, falsy `doc_id`, or a raising agent call) it records
`should_optimize = (quality < 0.6 ∨ n < 3)`; and the router sends control to
the optimize node exactly when `should_optimize` is true, else directly to
answer generation. -/
theorem C4_check_optimization_routing (numReranked : ℕ)
    (agent : Option (String → ℚ → Except String Recommendation))
    (docId : Option String) :
    (checkOptimizationNeeded numReranked agent docId).quality
        = min 1 ((numReranked : ℚ) / 5) ∧
    (∀ f d rec, agent = some f → docId = some d → d ≠ "" →
        f d (min 1 ((numReranked : ℚ) / 5)) = .ok rec →
        ((checkOptimizationNeeded numReranked agent docId).should_optimize = true
          ↔ rec.recommended_action ≠ "SKIP")) ∧
    (∀ f d e, agent = some f → docId = some d → d ≠ "" →
        f d (min 1 ((numReranked : ℚ) / 5)) = .error e →
        ((checkOptimizationNeeded numReranked agent docId).should_optimize = true
          ↔ (min 1 ((numReranked : ℚ) / 5) < 0.6 ∨ numReranked < 3))) ∧
    ((agent = none ∨ docId = none ∨ docId = some "") →
        ((checkOptimizationNeeded numReranked agent docId).should_optimize = true
          ↔ (min 1 ((numReranked : ℚ) / 5) < 0.6 ∨ numReranked < 3))) ∧
    (∀ b : Bool, routeToOptimization b = "optimize_context" ↔ b = true) ∧
    (∀ b : Bool, routeToOptimization b = "answer_question" ↔ b = false) := by
  have hfb : ∀ q n, (fallbackHeuristic q n = true) ↔ (q < 0.6 ∨ n < 3) := by
    intro q n; simp [fallbackHeuristic]
  refine ⟨?_, ?_, ?_, ?_, ?_, ?_⟩
  · cases agent with
    | none => rfl
    | some f =>
        cases docId with
        | none => rfl
        | some d =>
            by_cases hd : d = ""
            · subst hd; rfl
            · simp only [checkOptimizationNeeded, strTruthy]
              rw [if_pos (by simp [hd])]
              cases f d (min 1 ((numReranked : ℚ) / 5)) <;> rfl
  · intro f d rec hf hd hne hcall
    subst hf; subst hd
    simp only [checkOptimizationNeeded, strTruthy]
    rw [if_pos (by simp [hne]), hcall]
    simp
  · intro f d e hf hd hne hcall
    subst hf; subst hd
    simp only [checkOptimizationNeeded, strTruthy]
    rw [if_pos (by simp [hne]), hcall]
    exact hfb _ _
  · intro h
    rcases h with h | h | h
    · subst h; exact hfb _ _
    · subst h
      cases agent with
      | none => exact hfb _ _
      | some f => exact hfb _ _
    · subst h
      cases agent with
      | none => exact hfb _ _
      | some f =>
          simp only [checkOptimizationNeeded, strTruthy]
          rw [if_neg (by simp)]
          exact hfb _ _
  · intro b; cases b <;> simp [routeToOptimization]
  · intro b; cases b <;> simp [routeToOptimization]

open Workflow in
/-- Witness for C4: five reranked results, an agent recommending `OPTIMIZE`,
and document id `"doc1"`. -/
theorem C4_check_optimization_routing_witness :
    (checkOptimizationNeeded 5
        (some (fun _ _ => .ok ⟨"OPTIMIZE", "low quality"⟩)) (some "doc1")).quality
      = min 1 ((5 : ℚ) / 5) ∧
    ((checkOptimizationNeeded 5
        (some (fun _ _ => .ok ⟨"OPTIMIZE", "low quality"⟩)) (some "doc1")).should_optimize = true
      ↔ ("OPTIMIZE" : String) ≠ "SKIP") := by
  have h := C4_check_optimization_routing 5
    (some (fun _ _ => .ok ⟨"OPTIMIZE", "low quality"⟩)) (some "doc1")
  refine ⟨h.1, ?_⟩
  exact h.2.1 _ "doc1" ⟨"OPTIMIZE", "low quality"⟩ rfl rfl (by decide) rfl

namespace Rerank

/-- Round-half-even of a rational to an integer, the rounding Python's
built-in `round` uses (its binary floating-point noise aside). -/
def roundHalfEven (q : ℚ) : ℤ :=
  let f := ⌊q⌋
  let r := q - (f : ℚ)
  if r < 1/2 then f
  else if 1/2 < r then f + 1
  else if f % 2 = 0 then f else f + 1

/-- Python `round(q, 3)`. -/
def round3 (q : ℚ) : ℚ := ((roundHalfEven (q * 1000) : ℤ) : ℚ) / 1000

/-- One element of the `context` list fed to `rerank_context_tool`:
`score` is the original ChromaDB distance stored by
`retrieve_context_tool`. -/
structure RetrievedItem where
  text : String
  score : ℚ
  doc_id : String
deriving DecidableEq, Repr

/-- One reranked item: the rounded scores stored into its metadata by
`rerank_context_tool`. -/
structure RerankedItem where
  text : String
  doc_id : String
  relevance_score : ℚ
  similarity_score : ℚ
  original_distance : ℚ
  text_length : ℕ
deriving DecidableEq, Repr

/-- Per-item scoring in `rerank_context_tool`:
`similarity = max(0, 1 - distance)`, `length_score = min(1, len/500)`,
`relevance = 0.7*similarity + 0.3*length_score` clamped to `[0,1]`, all
stored rounded to three decimals. -/
def scoreItem (it : RetrievedItem) : RerankedItem :=
  let similarity_score := max 0 (1 - it.score)
  let length_score : ℚ := min 1 ((it.text.length : ℚ) / 500)
  let combined := 0.7 * similarity_score + 0.3 * length_score
  let relevance_score := max 0 (min 1 combined)
  { text := it.text, doc_id := it.doc_id,
    relevance_score := round3 relevance_score,
    similarity_score := round3 similarity_score,
    original_distance := round3 it.score,
    text_length := it.text.length }

/-- The body of `rerank_context_tool` on a non-empty parsed context list:
score each item, then
`reranked_items.sort(key=relevance_score, reverse=True)` (a stable sort into
descending relevance order). -/
def rerankContextTool (items : List RetrievedItem) : List RerankedItem :=
  (items.map scoreItem).mergeSort
    (fun a b => decide (b.relevance_score ≤ a.relevance_score))

/-- Relevance formula exactly as the claim words it:
`0.7 · (1 − distance) + 0.3 · min(1, len(text)/500)`, clamped to `[0, 1]`
only afterwards. -/
def claimRelevance (text : String) (distance : ℚ) : ℚ :=
  max 0 (min 1 (0.7 * (1 - distance) + 0.3 * min 1 ((text.length : ℚ) / 500)))

end Rerank

open Rerank in
/-- C5 counterexample: for the in-range distance 2 (the claim covers the
whole assumed `[0, 2]` range) and the five-character text `"hello"`, the code
assigns relevance `0.003` — the similarity term was floored at 0 before
weighting — while the claim's formula, clamped after weighting, yields 0. -/
theorem C5_rerank_formula_counterexample :
    (rerankContextTool [⟨"hello", 2, "d1"⟩]).map (fun it => it.relevance_score)
        = [3/1000] ∧
    claimRelevance "hello" 2 = 0 ∧ ((3 : ℚ)/1000 ≠ 0) := by
  refine ⟨?_, ?_, by norm_num⟩
  · have h1 : String.length "hello" = 5 := rfl
    simp only [rerankContextTool, List.map, scoreItem, List.mergeSort, h1]
    norm_num [round3, roundHalfEven]
  · have h1 : String.length "hello" = 5 := rfl
    simp only [claimRelevance, h1]
    norm_num

open Rerank in
/-- C5 (amended): each reranked item's stored relevance is
`round(0.7 · max(0, 1 − distance) + 0.3 · min(1, len/500), 3)` (the weighted
sum clamped to `[0,1]`), and the output is the scored input in descending
relevance order. -/
theorem C5_rerank_sorted_desc (items : List RetrievedItem) :
    (∀ it : RetrievedItem,
        (scoreItem it).relevance_score
          = round3 (max 0 (min 1
              (0.7 * max 0 (1 - it.score)
                + 0.3 * min 1 ((it.text.length : ℚ) / 500))))) ∧
    (rerankContextTool items).Pairwise
        (fun a b => b.relevance_score ≤ a.relevance_score) ∧
    List.Perm (rerankContextTool items) (items.map scoreItem) := by
  refine ⟨fun it => rfl, ?_, List.mergeSort_perm _ _⟩
  have h : ((items.map scoreItem).mergeSort
      (fun a b => decide (b.relevance_score ≤ a.relevance_score))).Pairwise
        (fun a b => decide (b.relevance_score ≤ a.relevance_score) = true) :=
    List.sorted_mergeSort
      (fun a b c h1 h2 => by
        simp only [decide_eq_true_eq] at h1 h2 ⊢
        exact le_trans h2 h1)
      (fun a b => by
        simp only [Bool.or_eq_true, decide_eq_true_eq]
        exact le_total b.relevance_score a.relevance_score)
      (items.map scoreItem)
  exact h.imp (fun hab => by simpa using hab)

namespace PyStr

/-- Python `str(n)` for a non-negative integer: decimal digits, most
significant first, with `str(0) = "0"`. -/
def natStr (n : ℕ) : String :=
  if n = 0 then "0" else String.mk ((Nat.digits 10 n).reverse.map Nat.digitChar)

/-- Decimal digit characters are never an underscore. -/
lemma digitChar_ne_underscore {d : ℕ} (hd : d < 10) : Nat.digitChar d ≠ '_' := by
  interval_cases d <;> decide

/-- The rendering of a number contains no underscore character. -/
lemma natStr_no_underscore (n : ℕ) : '_' ∉ (natStr n).data := by
  unfold natStr
  split
  · decide
  · intro hmem
    have hmem2 : '_' ∈ (Nat.digits 10 n).reverse.map Nat.digitChar := hmem
    rcases List.mem_map.mp hmem2 with ⟨d, hd, hEq⟩
    have hd10 : d < 10 :=
      Nat.digits_lt_base (by norm_num) (List.mem_reverse.mp hd)
    exact digitChar_ne_underscore hd10 hEq

/-- Decimal digit characters determine the digit. -/
lemma digitChar_inj {a b : ℕ} (ha : a < 10) (hb : b < 10) :
    Nat.digitChar a = Nat.digitChar b → a = b := by
  interval_cases a <;> interval_cases b <;> decide

/-- Mapping `digitChar` over digit lists is injective. -/
lemma map_digitChar_inj : ∀ l₁ l₂ : List ℕ, (∀ d ∈ l₁, d < 10) → (∀ d ∈ l₂, d < 10) →
    l₁.map Nat.digitChar = l₂.map Nat.digitChar → l₁ = l₂ := by
  intro l₁
  induction l₁ with
  | nil => intro l₂ _ _ h; cases l₂ with
      | nil => rfl
      | cons b t => simp at h
  | cons a t ih =>
      intro l₂ h1 h2 h
      cases l₂ with
      | nil => simp at h
      | cons b t2 =>
          simp only [List.map, List.cons.injEq] at h
          have hab : a = b :=
            digitChar_inj (h1 a (by simp)) (h2 b (by simp)) h.1
          have ht : t = t2 :=
            ih t2 (fun d hd => h1 d (by simp [hd])) (fun d hd => h2 d (by simp [hd])) h.2
          rw [hab, ht]


/-- A nonzero number never renders as `"0"`. -/
lemma natStr_ne_zero_str {n : ℕ} (hn : n ≠ 0) : natStr n ≠ "0" := by
  rw [natStr, if_neg hn]
  intro h
  have hdata : (Nat.digits 10 n).reverse.map Nat.digitChar = ['0'] :=
    congrArg String.data h
  have hlen : (Nat.digits 10 n).length = 1 := by
    have := congrArg List.length hdata
    simpa using this
  rcases List.length_eq_one.mp hlen with ⟨d, hdig⟩
  rw [hdig] at hdata
  simp only [List.reverse_singleton, List.map] at hdata
  have hd10 : d < 10 :=
    Nat.digits_lt_base (by norm_num) (show d ∈ Nat.digits 10 n by rw [hdig]; simp)
  have hd0 : d = 0 := by
    refine digitChar_inj hd10 (by norm_num) ?_
    simp only [List.cons.injEq] at hdata
    exact hdata.1
  have hofd := Nat.ofDigits_digits 10 n
  rw [hdig, hd0] at hofd
  simp [Nat.ofDigits] at hofd
  exact hn hofd.symm

/-- Python decimal rendering is injective. -/
lemma natStr_inj {m n : ℕ} (h : natStr m = natStr n) : m = n := by
  by_cases hm : m = 0 <;> by_cases hn : n = 0
  · rw [hm, hn]
  · exfalso
    subst hm
    rw [natStr, if_pos rfl] at h
    exact natStr_ne_zero_str hn h.symm
  · exfalso
    subst hn
    replace h := h.symm
    rw [natStr, if_pos rfl] at h
    exact natStr_ne_zero_str hm h.symm
  · rw [natStr, if_neg hm, natStr, if_neg hn] at h
    have hdata : (Nat.digits 10 m).reverse.map Nat.digitChar
        = (Nat.digits 10 n).reverse.map Nat.digitChar :=
      congrArg String.data h
    have hmap : (Nat.digits 10 m).map Nat.digitChar
        = (Nat.digits 10 n).map Nat.digitChar := by
      have hrev := congrArg List.reverse hdata
      simpa [List.map_reverse, List.reverse_reverse] using hrev
    have hdigs : Nat.digits 10 m = Nat.digits 10 n :=
      map_digitChar_inj _ _
        (fun d hd => Nat.digits_lt_base (by norm_num) hd)
        (fun d hd => Nat.digits_lt_base (by norm_num) hd) hmap
    have h1 := Nat.ofDigits_digits 10 m
    have h2 := Nat.ofDigits_digits 10 n
    rw [hdigs] at h1
    rw [← h1, h2]

/-- Python `s.lower()` (over the char sequence; `String.toLower` itself does
not reduce in the kernel). -/
def pyLower (s : String) : String :=
  String.mk (s.data.map Char.toLower)

/-- Python `s.strip()`: drop whitespace from both ends. -/
def pyStrip (s : String) : String :=
  String.mk (((s.data.dropWhile Char.isWhitespace).reverse.dropWhile
    Char.isWhitespace).reverse)

/-- Python `s.startswith(p)`. -/
def pyStartsWith (s p : String) : Bool :=
  p.data.isPrefixOf s.data

/-- Everything after the first occurrence of `c`, or `none` when `c` is
absent: the tail part of Python's `s.split(c, 1)`. -/
def afterChar (c : Char) : List Char → Option (List Char)
  | [] => none
  | x :: xs => if x = c then some xs else afterChar c xs

/-- Python `s.split(c)` on a single-character separator. -/
def splitOnChar (c : Char) : List Char → List (List Char)
  | [] => [[]]
  | x :: xs =>
      if x = c then [] :: splitOnChar c xs
      else
        match splitOnChar c xs with
        | [] => [[x]]
        | y :: ys => (x :: y) :: ys

/-- Python `s.split(c, 1)[1]` as a `String`, the string itself when the
separator is absent (the code only applies this under a `startswith` guard
that guarantees presence). -/
def afterCharStr (c : Char) (s : String) : String :=
  match afterChar c s.data with
  | some l => String.mk l
  | none => s

end PyStr

namespace Ingestion

/-- One chunk record produced by `chunk_document_tool`. -/
structure Chunk where
  chunk_id : String
  text : String
  strategy : String
  size : ℕ
  index : ℕ
deriving DecidableEq, Repr

/-- The JSON payload returned by `chunk_document_tool` on success. -/
structure ChunkResult where
  success : Bool
  doc_id : String
  num_chunks : ℕ
  chunks : List Chunk
deriving DecidableEq, Repr

/-- The body of `chunk_document_tool`: split the text with the (external,
LangChain) `RecursiveCharacterTextSplitter` — passed in as `splitText`, a
function of the text and the size/overlap parameters only — and wrap each
piece with `chunk_id = f"{doc_id}_chunk_{i}"`, numbering from 0. -/
def chunkDocumentTool (splitText : String → ℕ → ℕ → List String)
    (text doc_id strategy : String) (chunk_size overlap : ℕ) : ChunkResult :=
  let cs := splitText text chunk_size overlap
  let result := cs.enum.map (fun p =>
    { chunk_id := doc_id ++ "_chunk_" ++ PyStr.natStr p.1,
      text := p.2, strategy := strategy, size := p.2.length, index := p.1 })
  ⟨true, doc_id, result.length, result⟩

/-- One element of the parsed `chunks` list given to
`save_to_vectordb_tool` (the fields the tool reads). -/
structure InChunk where
  text : String
  index : ℕ
deriving DecidableEq, Repr

/-- Parsed `chunks` argument of `save_to_vectordb_tool`. -/
structure ChunksData where
  success : Bool
  chunks : List InChunk
deriving DecidableEq, Repr

/-- The JSON payload `save_to_vectordb_tool` returns. -/
structure SaveResult where
  success : Bool
  doc_id : String
  chunks_saved : ℕ
  error : Option String
deriving DecidableEq, Repr

/-- The batch handed to `vectordb_service.collection.add`. -/
structure VectorAdd where
  ids : List String
  documents : List String
deriving DecidableEq, Repr

/-- The chunk-processing loop of `save_to_vectordb_tool`: strip each chunk
text, skip empty ones, and pair `f"{doc_id}_chunk_{index}"` with the
stripped text. -/
def processedChunks (doc_id : String) (chunks : List InChunk) : List (String × String) :=
  chunks.filterMap (fun c =>
    let t := PyStr.pyStrip c.text
    if t = "" then none
    else some (doc_id ++ "_chunk_" ++ PyStr.natStr c.index, t))

/-- The body of `save_to_vectordb_tool`, conditioned on the vector-store
batch add succeeding (a raising add would hit the outer `except`).  The
SQLite document/chunk writes run inside their own `try/except` whose handler
only logs, so `relationalWrite = Except.error _` and `.ok ()` produce the
same returned payload; the second component is the batch that was added to
the vector store. -/
def saveToVectordbTool (cd : ChunksData) (doc_id : String)
    (relationalWrite : Except String Unit) : SaveResult × Option VectorAdd :=
  if ¬(cd.success = true) ∨ cd.chunks = [] then
    (⟨false, doc_id, 0, some ("Invalid or empty chunks list provided.")⟩, none)
  else
    let processed := processedChunks doc_id cd.chunks
    if processed = [] then
      (⟨false, doc_id, 0, some ("No valid chunk text found after processing.")⟩, none)
    else
      let add : VectorAdd := ⟨processed.map Prod.fst, processed.map Prod.snd⟩
      match relationalWrite with
      | .ok _ => (⟨true, doc_id, add.ids.length, none⟩, some add)
      | .error _ => (⟨true, doc_id, add.ids.length, none⟩, some add)

/-- Enumerating a list and reading a function of the counter equals mapping
that function over the counter range. -/
lemma enumFrom_map_fst_apply {β : Type} (g : ℕ → β) :
    ∀ (l : List String) (n : ℕ),
      (List.enumFrom n l).map (fun p => g p.1) = (List.range' n l.length).map g := by
  intro l
  induction l with
  | nil => intro n; rfl
  | cons a t ih =>
      intro n
      simp only [List.enumFrom, List.length_cons, List.range', List.map]
      rw [ih (n + 1)]

/-- Specialisation of `enumFrom_map_fst_apply` to `List.enum`. -/
lemma enum_map_fst_apply {β : Type} (g : ℕ → β) (l : List String) :
    l.enum.map (fun p => g p.1) = (List.range l.length).map g := by
  rw [List.enum, List.range_eq_range']
  exact enumFrom_map_fst_apply g l 0

/-- Indices of an enumerated list form the range of its length. -/
lemma enum_map_fst_eq_range (l : List String) :
    l.enum.map (fun p => p.1) = List.range l.length := by
  have h := enum_map_fst_apply (fun i => i) l
  rwa [List.map_id'] at h

end Ingestion

open Ingestion in
/-- C9: chunking is doc_id-independent — with the same text, splitter and
size/overlap parameters, two runs with different doc_ids produce the same
`num_chunks` and the same chunk texts in order; the doc_id only enters the
`{doc_id}_chunk_{i}` labels, numbered from 0. -/
theorem C9_chunking_docid_independent
    (splitText : String → ℕ → ℕ → List String)
    (text d₁ d₂ strategy : String) (chunk_size overlap : ℕ) :
    (chunkDocumentTool splitText text d₁ strategy chunk_size overlap).num_chunks
      = (chunkDocumentTool splitText text d₂ strategy chunk_size overlap).num_chunks ∧
    (chunkDocumentTool splitText text d₁ strategy chunk_size overlap).chunks.map Chunk.text
      = (chunkDocumentTool splitText text d₂ strategy chunk_size overlap).chunks.map Chunk.text ∧
    (chunkDocumentTool splitText text d₁ strategy chunk_size overlap).chunks.map Chunk.index
      = List.range (chunkDocumentTool splitText text d₁ strategy chunk_size overlap).num_chunks ∧
    (chunkDocumentTool splitText text d₁ strategy chunk_size overlap).chunks.map Chunk.chunk_id
      = (List.range
          (chunkDocumentTool splitText text d₁ strategy chunk_size overlap).num_chunks).map
          (fun i => d₁ ++ "_chunk_" ++ PyStr.natStr i) := by
  refine ⟨by simp [chunkDocumentTool], ?_, ?_, ?_⟩
  · simp only [chunkDocumentTool, List.map_map]
    rfl
  · simp only [chunkDocumentTool, List.map_map, List.length_map, List.enum_length]
    exact enum_map_fst_eq_range (splitText text chunk_size overlap)
  · simp only [chunkDocumentTool, List.map_map, List.length_map, List.enum_length]
    exact enum_map_fst_apply (fun i => d₁ ++ "_chunk_" ++ PyStr.natStr i)
      (splitText text chunk_size overlap)

open Ingestion in
/-- C8: when the vector-store add succeeds, a failing relational (SQLite)
write changes nothing about the returned payload — the tool still reports
`success = true` with `chunks_saved` equal to the number of chunks in the
vector-store batch and no error. -/
theorem C8_relational_failure_swallowed (cd : ChunksData) (doc_id e : String) :
    saveToVectordbTool cd doc_id (.error e) = saveToVectordbTool cd doc_id (.ok ()) ∧
    (∀ r add, cd.success = true → processedChunks doc_id cd.chunks ≠ [] →
        saveToVectordbTool cd doc_id (.error e) = (r, add) →
        r.success = true ∧ r.error = none ∧
        ∃ va, add = some va ∧ r.chunks_saved = va.ids.length) := by
  constructor
  · rfl
  · intro r add hsucc hproc heq
    have hchunks : cd.chunks ≠ [] := by
      intro hnil
      apply hproc
      rw [hnil]
      rfl
    unfold saveToVectordbTool at heq
    rw [if_neg (by simp [hsucc, hchunks])] at heq
    simp only at heq
    rw [if_neg hproc] at heq
    injection heq with h1 h2
    subst h1
    subst h2
    exact ⟨rfl, rfl, _, rfl, rfl⟩

open Ingestion in
/-- Witness for C8: one valid chunk, a failing relational write; the save is
still reported successful with one chunk saved. -/
theorem C8_relational_failure_swallowed_witness :
    (⟨true, [⟨"hello world", 0⟩]⟩ : ChunksData).success = true ∧
    processedChunks "d1" [⟨"hello world", 0⟩] ≠ [] ∧
    ((saveToVectordbTool ⟨true, [⟨"hello world", 0⟩]⟩ "d1" (.error "sqlite down")).1.success
        = true ∧
      (saveToVectordbTool ⟨true, [⟨"hello world", 0⟩]⟩ "d1" (.error "sqlite down")).1.error
        = none ∧
      ∃ va, (saveToVectordbTool ⟨true, [⟨"hello world", 0⟩]⟩ "d1" (.error "sqlite down")).2
          = some va ∧
        (saveToVectordbTool ⟨true, [⟨"hello world", 0⟩]⟩ "d1"
          (.error "sqlite down")).1.chunks_saved = va.ids.length) := by
  refine ⟨rfl, by decide, ?_⟩
  have h := (C8_relational_failure_swallowed ⟨true, [⟨"hello world", 0⟩]⟩ "d1" "sqlite down").2
    ((saveToVectordbTool ⟨true, [⟨"hello world", 0⟩]⟩ "d1" (.error "sqlite down")).1)
    ((saveToVectordbTool ⟨true, [⟨"hello world", 0⟩]⟩ "d1" (.error "sqlite down")).2)
    rfl (by decide) rfl
  exact h

namespace Guardrails

/-- The `RiskLevel` enum of `guardrails_service.py`.  It is a plain Python
`Enum` (not an `IntEnum`): its members carry string values and support no
order comparison. -/
inductive RiskLevel where
  | SAFE
  | LOW
  | MEDIUM
  | HIGH
  | CRITICAL
deriving DecidableEq, Repr

/-- The string `value` of each `RiskLevel` member. -/
def RiskLevel.value : RiskLevel → String
  | .SAFE => "safe"
  | .LOW => "low"
  | .MEDIUM => "medium"
  | .HIGH => "high"
  | .CRITICAL => "critical"

/-- The severity ordering the claim (and the spec) intend:
`SAFE < LOW < MEDIUM < HIGH < CRITICAL`. -/
def RiskLevel.rank : RiskLevel → ℕ
  | .SAFE => 0
  | .LOW => 1
  | .MEDIUM => 2
  | .HIGH => 3
  | .CRITICAL => 4

/-- Lexicographic character-list comparison: Python's `<` on strings
(code-point order). -/
def strLtChars : List Char → List Char → Bool
  | [], [] => false
  | [], _ :: _ => true
  | _ :: _, [] => false
  | a :: as, b :: bs =>
      if a < b then true else if b < a then false else strLtChars as bs

/-- Python `a > b` on strings. -/
def pyStrGt (a b : String) : Bool := strLtChars b.data a.data

/-- A `GuardrailViolation` (details dict omitted; its content repeats the
list of violations). -/
structure Violation where
  guardrail_type : String
  risk_level : RiskLevel
  message : String
deriving DecidableEq, Repr

/-- Which of the six security regex patterns of `check_security` matched the
response.  The regex engine is external (`re`); a flag is `true` exactly
when `re.search` finds the corresponding pattern in the answer string. -/
structure SecFlags where
  email : Bool
  phone : Bool
  ssn : Bool
  credit_card : Bool
  credential : Bool
  sql : Bool
deriving DecidableEq, Repr

/-- The `violations_found` list of `check_security`, in the order the checks
run. -/
def securityViolationsFound (f : SecFlags) : List (String × RiskLevel) :=
  (if f.email then [("PII - Email Address", RiskLevel.HIGH)] else []) ++
  (if f.phone then [("PII - Phone Number", RiskLevel.HIGH)] else []) ++
  (if f.ssn then [("PII - SSN", RiskLevel.CRITICAL)] else []) ++
  (if f.credit_card then [("PII - Credit Card", RiskLevel.CRITICAL)] else []) ++
  (if f.credential then [("Security - API/Password Exposure", RiskLevel.CRITICAL)] else []) ++
  (if f.sql then [("Security - SQL Patterns", RiskLevel.MEDIUM)] else [])

/-- Python `max()` over a list of `RiskLevel` members: on an empty sequence
it raises `ValueError`; on one element it returns it without comparing; on
two or more it immediately compares two members with `>`, which a plain
`Enum` does not support, so it raises `TypeError`. -/
def pyEnumMax : List RiskLevel → Except String RiskLevel
  | [] => .error "ValueError: max() arg is an empty sequence"
  | [x] => .ok x
  | _ :: _ :: _ =>
      .error "TypeError: '>' not supported between instances of 'RiskLevel' and 'RiskLevel'"

/-- The body of `check_security`: collect pattern violations; when any were
found, take `max(v[1] for v in violations_found)` (which can raise) and
return `(False, violation)`; otherwise `(True, None)`. -/
def checkSecurity (f : SecFlags) : Except String (Bool × Option Violation) :=
  let vs := securityViolationsFound f
  match vs with
  | [] => .ok (true, none)
  | _ :: _ =>
      match pyEnumMax (vs.map Prod.snd) with
      | .ok m =>
          .ok (false, some ⟨"security", m,
            "Response contains sensitive/security-sensitive data"⟩)
      | .error e => .error e

/-- The running-maximum update of `validate_response`:
`if violation and violation.risk_level.value > max_risk.value:
max_risk = violation.risk_level` — note it compares the enum members'
STRING values with Python string `>`. -/
def updateMaxRisk (cur : RiskLevel) (v : Option Violation) : RiskLevel :=
  match v with
  | some viol => if pyStrGt viol.risk_level.value cur.value then viol.risk_level else cur
  | none => cur

/-- Result fields of `validate_response` relevant to the claim. -/
structure ValidationResult where
  is_safe : Bool
  max_risk_level : String
deriving DecidableEq, Repr

/-- The body of `validate_response` with the default `check_types`.  The
four LLM-backed checks (hallucination, accuracy, tone, completeness) are
oracles passed in as their `(valid, violation)` results — each is
`(True, None)` whenever `llm_service` is `None` — while the pattern-based
security check is computed from the match flags.  `max_risk` starts at
`SAFE` and is updated by string-value comparison after each check, in the
order the code runs them. -/
def validateResponse (halluc accur tone compl : Bool × Option Violation)
    (f : SecFlags) : Except String ValidationResult :=
  let mr1 := updateMaxRisk RiskLevel.SAFE halluc.2
  match checkSecurity f with
  | .error e => .error e
  | .ok sec =>
      let mr2 := updateMaxRisk mr1 sec.2
      let mr3 := updateMaxRisk mr2 accur.2
      let mr4 := updateMaxRisk mr3 tone.2
      let mr5 := updateMaxRisk mr4 compl.2
      let is_safe := halluc.1 && sec.1 && accur.1 && tone.1 && compl.1
      .ok ⟨is_safe, mr5.value⟩

/-- Maximum violation risk under the intended severity order, written from
the claim's words: the maximum of the risk levels of all violations found. -/
def claimMaxRisk (vs : List RiskLevel) : RiskLevel :=
  vs.foldl (fun acc r => if acc.rank < r.rank then r else acc) RiskLevel.SAFE

/-- Nothing compares string-greater than `"safe"` among the risk values, so
the running maximum started at `SAFE` never moves. -/
lemma updateMaxRisk_safe (v : Option Violation) : updateMaxRisk RiskLevel.SAFE v = RiskLevel.SAFE := by
  cases v with
  | none => rfl
  | some viol =>
      obtain ⟨t, r, m⟩ := viol
      cases r <;> rfl

/-- Whenever `validate_response` returns at all, it reports
`max_risk_level = "safe"`, no matter which violations the checks found. -/
lemma validateResponse_always_safe (halluc accur tone compl : Bool × Option Violation)
    (f : SecFlags) (r : ValidationResult)
    (h : validateResponse halluc accur tone compl f = .ok r) :
    r.max_risk_level = "safe" := by
  unfold validateResponse at h
  cases hsec : checkSecurity f with
  | error e => rw [hsec] at h; cases h
  | ok sec =>
      rw [hsec] at h
      simp only [updateMaxRisk_safe] at h
      cases r with
      | mk is_safe mrl =>
          simp only [Except.ok.injEq, ValidationResult.mk.injEq] at h
          exact h.2.symm

end Guardrails

open Guardrails in
/-- C1 (code bug): the pattern-based guardrails do not classify a response
by the maximum violation risk.  For a response matching only the credential
pattern (e.g. `"the password: hunter2"`), `check_security` attaches a
CRITICAL violation, yet `validate_response` reports `max_risk_level =
"safe"`, because it compares the enum members' string values
lexicographically and `"safe"` is lexicographically greatest.  And for a
response matching both the credential pattern (CRITICAL) and the SQL
pattern (MEDIUM) — the claim's own example — `check_security` raises
`TypeError` from `max()` over unordered `Enum` members instead of returning
CRITICAL. -/
theorem C1_risk_classification_bug :
    checkSecurity ⟨false, false, false, false, true, false⟩
        = .ok (false, some ⟨"security", RiskLevel.CRITICAL,
            "Response contains sensitive/security-sensitive data"⟩) ∧
    validateResponse (true, none) (true, none) (true, none) (true, none)
        ⟨false, false, false, false, true, false⟩
        = .ok ⟨false, "safe"⟩ ∧
    claimMaxRisk ((securityViolationsFound
        ⟨false, false, false, false, true, false⟩).map Prod.snd) = RiskLevel.CRITICAL ∧
    ("safe" : String) ≠ RiskLevel.CRITICAL.value ∧
    checkSecurity ⟨false, false, false, false, true, true⟩
        = .error "TypeError: '>' not supported between instances of 'RiskLevel' and 'RiskLevel'" ∧
    claimMaxRisk ((securityViolationsFound
        ⟨false, false, false, false, true, true⟩).map Prod.snd) = RiskLevel.CRITICAL := by
  refine ⟨rfl, ?_, rfl, by decide, rfl, rfl⟩
  rfl

namespace Chat

/-- The `ChatMode` enum of `chat_interface.py`. -/
inductive ChatMode where
  | user
  | admin
deriving DecidableEq, Repr

/-- String value of a chat mode. -/
def ChatMode.value : ChatMode → String
  | .user => "user"
  | .admin => "admin"

/-- The `ResponseMode` enum. -/
inductive ResponseMode where
  | concise
  | verbose
  | internal
deriving DecidableEq, Repr

/-- String value of a response mode. -/
def ResponseMode.value : ResponseMode → String
  | .concise => "concise"
  | .verbose => "verbose"
  | .internal => "internal"

/-- The `ChatCommandType` enum. -/
inductive ChatCommandType where
  | query
  | rag_query
  | ingest_file
  | ingest_text
  | ingest_table
  | heal
  | optimize
  | check_health
  | set_mode
  | set_chat_mode
  | get_status
  | help
  | clear
deriving DecidableEq, Repr

/-- String value of a command type (the enum's `.value`). -/
def ChatCommandType.value : ChatCommandType → String
  | .query => "query"
  | .rag_query => "rag_query"
  | .ingest_file => "ingest_file"
  | .ingest_text => "ingest_text"
  | .ingest_table => "ingest_table"
  | .heal => "heal"
  | .optimize => "optimize"
  | .check_health => "check_health"
  | .set_mode => "set_mode"
  | .set_chat_mode => "set_chat_mode"
  | .get_status => "get_status"
  | .help => "help"
  | .clear => "clear"

/-- A parsed `ChatCommand` (`kwargs` is always empty in the code). -/
structure ChatCommand where
  command_type : ChatCommandType
  raw_input : String
  args : List String
deriving DecidableEq, Repr

/-- Argument extraction for multi-part (admin) commands:
`text.split(":", 1)[1].strip()` split on `"|"` with each part stripped. -/
def adminArgs (t : String) : List String :=
  (PyStr.splitOnChar '|' (PyStr.pyStrip (PyStr.afterCharStr ':' t)).data).map
    (fun l => PyStr.pyStrip (String.mk l))

/-- The body of `ChatCommand.parse`: the cascade of prefix checks, in order.
Returns the parsed command or the parse-error message. -/
def parseChatText (text : String) : Except String ChatCommand :=
  let t := PyStr.pyStrip text
  let low := PyStr.pyLower t
  if low = "help" ∨ low = "/help" ∨ low = "?" then .ok ⟨.help, t, []⟩
  else if low = "status" ∨ low = "/status" then .ok ⟨.get_status, t, []⟩
  else if low = "clear" ∨ low = "/clear" then .ok ⟨.clear, t, []⟩
  else if PyStr.pyStartsWith low ("set_mode:") ∨ PyStr.pyStartsWith low ("mode:") then
    let mode_str := PyStr.pyLower (PyStr.pyStrip (PyStr.afterCharStr ':' t))
    if mode_str = "concise" ∨ mode_str = "verbose" ∨ mode_str = "internal" then
      .ok ⟨.set_mode, t, [mode_str]⟩
    else .error ("Invalid response mode: " ++ mode_str)
  else if PyStr.pyStartsWith low ("set_chat_mode:") ∨ PyStr.pyStartsWith low ("chat_mode:") then
    let mode_str := PyStr.pyLower (PyStr.pyStrip (PyStr.afterCharStr ':' t))
    if mode_str = "admin" ∨ mode_str = "user" then
      .ok ⟨.set_chat_mode, t, [mode_str]⟩
    else .error ("Invalid chat mode: " ++ mode_str)
  else if PyStr.pyStartsWith low ("ingest_file:") then .ok ⟨.ingest_file, t, adminArgs t⟩
  else if PyStr.pyStartsWith low ("ingest_text:") then .ok ⟨.ingest_text, t, adminArgs t⟩
  else if PyStr.pyStartsWith low ("ingest_table:") then .ok ⟨.ingest_table, t, adminArgs t⟩
  else if PyStr.pyStartsWith low ("heal:") then .ok ⟨.heal, t, adminArgs t⟩
  else if PyStr.pyStartsWith low ("optimize:") then .ok ⟨.optimize, t, adminArgs t⟩
  else if PyStr.pyStartsWith low ("check_health:") then .ok ⟨.check_health, t, adminArgs t⟩
  else if PyStr.pyStartsWith low ("rag_query:") ∨ PyStr.pyStartsWith low ("rag:") then
    .ok ⟨.rag_query, t, [PyStr.pyStrip (PyStr.afterCharStr ':' t)]⟩
  else if PyStr.pyStartsWith low ("query:") then
    .ok ⟨.query, t, [PyStr.pyStrip (PyStr.afterCharStr ':' t)]⟩
  else .ok ⟨.rag_query, t, [t]⟩

/-- The fields of a `ChatMessage` the session state depends on (ids and
wall-clock timestamps omitted). -/
structure ChatMessage where
  sender : String
  content : String
  mode : ChatMode
  response_mode : ResponseMode
  command_type : Option ChatCommandType
  session_id : String
  user_id : String
  department : String
  role : String
deriving DecidableEq, Repr

/-- The session's context cache dict. -/
structure SessionContext where
  last_doc_id : Option String
  last_query : Option String
  ingested_files : List String
  healed_docs : List String
deriving DecidableEq, Repr

/-- The fresh context every session starts with (and `clear` resets to). -/
def SessionContext.empty : SessionContext := ⟨none, none, [], []⟩

/-- A `ChatSession` (timestamps omitted: no claim concerns
`created_at`/`last_activity`). -/
structure ChatSession where
  session_id : String
  user_id : String
  department : String
  role : String
  mode : ChatMode
  response_mode : ResponseMode
  message_history : List ChatMessage
  command_history : List ChatCommand
  ctx : SessionContext
deriving DecidableEq, Repr

/-- `ChatSession.is_admin`. -/
def ChatSession.isAdmin (s : ChatSession) : Bool := s.mode == ChatMode.admin

/-- `ChatSession.add_message`: stamp the message with the session identity
fields and append it to the history. -/
def ChatSession.addMessage (s : ChatSession) (m : ChatMessage) : ChatSession :=
  let m2 := { m with
    session_id := s.session_id
    user_id := s.user_id
    department := s.department
    role := s.role }
  { s with message_history := s.message_history ++ [m2] }

/-- `ChatSession.add_command`. -/
def ChatSession.addCommand (s : ChatSession) (c : ChatCommand) : ChatSession :=
  { s with command_history := s.command_history ++ [c] }

/-- The response fields the claims are about (timing and token counters
omitted). -/
structure ChatResponse where
  message_id : String
  status : String
  content : String
  command_type : Option ChatCommandType
  error : Option String
  session_id : String
deriving DecidableEq, Repr

/-- The `ChatRAGInterface` state: the session map and the doc-id cache. -/
structure ChatIface where
  sessions : List (String × ChatSession)
  doc_id_cache : List String

/-- `self.sessions.get(session_id)`. -/
def lookupSession (l : List (String × ChatSession)) (sid : String) : Option ChatSession :=
  (l.find? (fun p => p.1 == sid)).map Prod.snd

/-- In-place mutation of the session object, seen through the map. -/
def setSession (l : List (String × ChatSession)) (sid : String) (s : ChatSession) :
    List (String × ChatSession) :=
  l.map (fun p => if p.1 == sid then (p.1, s) else p)

/-- What `_invoke_agent` hands back (status, rendered content, error). -/
structure AgentResult where
  status : String
  content : String
  error : Option String
deriving DecidableEq, Repr

/-- `ResponseMode[arg.upper()]`: `none` models the `KeyError` case. -/
def responseModeOfStr : String → Option ResponseMode
  | "concise" => some .concise
  | "verbose" => some .verbose
  | "internal" => some .internal
  | _ => none

/-- `ChatMode[arg.upper()]`: `none` models the `KeyError` case. -/
def chatModeOfStr : String → Option ChatMode
  | "user" => some .user
  | "admin" => some .admin
  | _ => none

/-- The command types listed in the admin-only permission check of
`process_message`. -/
def isAdminOnly : ChatCommandType → Bool
  | .ingest_file => true
  | .ingest_text => true
  | .ingest_table => true
  | .heal => true
  | .optimize => true
  | .check_health => true
  | _ => false

/-- Placeholder for `_get_help_text` (presentation only; no claim reads the
help text). -/
def helpText (_s : ChatSession) : String := "help"

/-- Placeholder for `_get_status_text` (presentation only). -/
def statusText (_s : ChatSession) : String := "status"

/-- Everything one `process_message` call produces: the response, the
updated interface state, and whether the RAG agent was invoked. -/
structure ProcessOutcome where
  response : ChatResponse
  iface : ChatIface
  agent_invoked : Bool

end Chat

namespace Chat

/-- The body of `process_message` for one incoming text.  `msgId` stands for
the fresh `uuid4` of this call; `agent` is the `_invoke_agent` oracle, whose
call may raise (the surrounding `try/except` turns that into an
`"Agent error: ..."` response).  Mirrors the code's order: session lookup,
parse, `add_message`, `add_command`, the special command branches, the
admin-only permission gate, then delegation. -/
def processMessage (iface : ChatIface) (text sessionId msgId : String)
    (agent : ChatCommand → ChatSession → Except String AgentResult) : ProcessOutcome :=
  match lookupSession iface.sessions sessionId with
  | none =>
      ⟨⟨msgId, "error", "", none, some ("Session not found: " ++ sessionId), ""⟩, iface, false⟩
  | some session =>
      match parseChatText text with
      | .error perr =>
          ⟨⟨msgId, "error", "", none, some perr, sessionId⟩, iface, false⟩
      | .ok command =>
          let msg : ChatMessage :=
            ⟨"user", text, session.mode, session.response_mode,
              some command.command_type, sessionId, session.user_id,
              session.department, session.role⟩
          let session := (session.addMessage msg).addCommand command
          let writeBack := fun (s : ChatSession) =>
            { iface with sessions := setSession iface.sessions sessionId s }
          let ct := command.command_type
          if ct = .help then
            ⟨⟨msgId, "success", helpText session, some ct, none, sessionId⟩,
              writeBack session, false⟩
          else if ct = .get_status then
            ⟨⟨msgId, "success", statusText session, some ct, none, sessionId⟩,
              writeBack session, false⟩
          else if ct = .set_mode then
            match responseModeOfStr (command.args.headD "") with
            | some m =>
                let session := { session with response_mode := m }
                ⟨⟨msgId, "success", "✓ Response mode set to: " ++ m.value,
                  some ct, none, sessionId⟩, writeBack session, false⟩
            | none =>
                ⟨⟨msgId, "error", "", some ct,
                  some ("Agent error: KeyError"), sessionId⟩, writeBack session, false⟩
          else if ct = .set_chat_mode then
            if !session.isAdmin && (PyStr.pyLower (command.args.headD "") == "admin") then
              ⟨⟨msgId, "error", "", some ct,
                some ("Permission denied: Admin mode requires elevated privileges"),
                sessionId⟩, writeBack session, false⟩
            else
              match chatModeOfStr (command.args.headD "") with
              | some m =>
                  let session := { session with mode := m }
                  ⟨⟨msgId, "success", "✓ Chat mode set to: " ++ m.value,
                    some ct, none, sessionId⟩, writeBack session, false⟩
              | none =>
                  ⟨⟨msgId, "error", "", some ct,
                    some ("Agent error: KeyError"), sessionId⟩, writeBack session, false⟩
          else if ct = .clear then
            let session := { session with
              message_history := []
              command_history := []
              ctx := SessionContext.empty }
            ⟨⟨msgId, "success", "✓ Session cleared", some ct, none, sessionId⟩,
              writeBack session, false⟩
          else if !session.isAdmin && isAdminOnly ct then
            ⟨⟨msgId, "error", "", some ct,
              some ("Permission denied: " ++ ct.value ++ " requires admin mode"),
              sessionId⟩, writeBack session, false⟩
          else
            match agent command session with
            | .ok result =>
                let session := { session with
                  ctx := { session.ctx with last_query := some text } }
                ⟨⟨msgId, if result.status = "success" then "success" else "error",
                  result.content, some ct, result.error, sessionId⟩,
                  writeBack session, true⟩
            | .error e =>
                ⟨⟨msgId, "error", "", some ct,
                  some ("Agent error: " ++ e), sessionId⟩, writeBack session, true⟩

end Chat

namespace Chat

/-- Looking up the only session of a one-session map. -/
lemma lookupSession_single (sid : String) (s : ChatSession) :
    lookupSession [(sid, s)] sid = some s := by
  simp [lookupSession, List.find?]

/-- Writing back the only session of a one-session map. -/
lemma setSession_single (sid : String) (s s2 : ChatSession) :
    setSession [(sid, s)] sid s2 = [(sid, s2)] := by
  simp [setSession]

/-- Histories do not change the mode or identity fields. -/
lemma addMessage_addCommand_fields (s : ChatSession) (m : ChatMessage) (c : ChatCommand) :
    ((s.addMessage m).addCommand c).mode = s.mode ∧
    ((s.addMessage m).addCommand c).response_mode = s.response_mode ∧
    ((s.addMessage m).addCommand c).user_id = s.user_id ∧
    ((s.addMessage m).addCommand c).department = s.department ∧
    ((s.addMessage m).addCommand c).role = s.role ∧
    ((s.addMessage m).addCommand c).session_id = s.session_id ∧
    ((s.addMessage m).addCommand c).ctx = s.ctx := by
  simp [ChatSession.addMessage, ChatSession.addCommand]

/-- A session in USER mode issuing `set_chat_mode` with argument `admin` is
denied: error response, no agent call, and the written-back session keeps
the old mode (only its histories grew). -/
lemma pm_set_chat_mode_admin_denied (iface : ChatIface) (text sid msgId t : String)
    (agent : ChatCommand → ChatSession → Except String AgentResult) (s : ChatSession)
    (hlook : lookupSession iface.sessions sid = some s)
    (hmode : s.mode = ChatMode.user)
    (hparse : parseChatText text = .ok ⟨.set_chat_mode, t, ["admin"]⟩) :
    (processMessage iface text sid msgId agent).response.status = "error" ∧
    (processMessage iface text sid msgId agent).response.error
      = some ("Permission denied: Admin mode requires elevated privileges") ∧
    (processMessage iface text sid msgId agent).agent_invoked = false ∧
    ∃ s1, (processMessage iface text sid msgId agent).iface.sessions
        = setSession iface.sessions sid s1 ∧ s1.mode = s.mode ∧
        s1.response_mode = s.response_mode ∧ s1.user_id = s.user_id ∧
        s1.department = s.department ∧ s1.role = s.role := by
  have hal : PyStr.pyLower "admin" = "admin" := rfl
  have hadm : ((s.addMessage ⟨"user", text, s.mode, s.response_mode,
      some ChatCommandType.set_chat_mode, sid, s.user_id, s.department,
      s.role⟩).addCommand ⟨.set_chat_mode, t, ["admin"]⟩).isAdmin = false := by
    simp [ChatSession.isAdmin, ChatSession.addMessage, ChatSession.addCommand, hmode]
  simp only [processMessage, hlook, hparse]
  simp only [List.headD, hal, hadm]
  simp [ChatSession.addMessage, ChatSession.addCommand, hmode]
  exact ⟨_, rfl, rfl, rfl, rfl, rfl, rfl⟩

end Chat

namespace Chat

/-- A session in USER mode issuing any admin-only command (ingest_file,
ingest_text, ingest_table, heal, optimize, check_health) is denied before
the agent is consulted. -/
lemma pm_admin_only_denied (iface : ChatIface) (text sid msgId t : String)
    (args : List String)
    (agent : ChatCommand → ChatSession → Except String AgentResult) (s : ChatSession)
    (ct : ChatCommandType)
    (hlook : lookupSession iface.sessions sid = some s)
    (hmode : s.mode = ChatMode.user)
    (hparse : parseChatText text = .ok ⟨ct, t, args⟩)
    (hadm : isAdminOnly ct = true) :
    (processMessage iface text sid msgId agent).response.status = "error" ∧
    (processMessage iface text sid msgId agent).response.error
      = some ("Permission denied: " ++ ct.value ++ " requires admin mode") ∧
    (processMessage iface text sid msgId agent).agent_invoked = false ∧
    ∃ s1, (processMessage iface text sid msgId agent).iface.sessions
        = setSession iface.sessions sid s1 ∧ s1.mode = s.mode := by
  cases ct <;> first
    | exact absurd hadm (by decide)
    | (simp only [processMessage, hlook, hparse]
       simp [ChatSession.isAdmin, ChatSession.addMessage, ChatSession.addCommand,
         hmode, ChatCommandType.value, isAdminOnly]
       exact ⟨_, rfl, rfl⟩)

end Chat

namespace Chat

/-- The six admin-only probe commands the claim mentions, each with its enum
value (the name appearing in the denial message). -/
def adminProbe : List (String × String) :=
  [("ingest_file: /tmp/a.pdf", "ingest_file"),
   ("ingest_text: foo", "ingest_text"),
   ("ingest_table: tbl | db.sqlite", "ingest_table"),
   ("heal: doc1 | 0.5", "heal"),
   ("optimize: doc1", "optimize"),
   ("check_health: doc1", "check_health")]

end Chat

open Chat in
/-- C6: a session in USER chat mode issuing `set_chat_mode: admin` gets a
permission-denied error, its chat mode stays USER, and every subsequent
admin-only command on the resulting state is denied with a permission error
without the agent being invoked. -/
theorem C6_user_mode_elevation_denied (sid msgId1 msgId2 : String) (s : ChatSession)
    (cache : List String)
    (agent agent2 : ChatCommand → ChatSession → Except String AgentResult) :
    (processMessage ⟨[(sid, { s with mode := ChatMode.user })], cache⟩
        "set_chat_mode: admin" sid msgId1 agent).response.status = "error" ∧
    (processMessage ⟨[(sid, { s with mode := ChatMode.user })], cache⟩
        "set_chat_mode: admin" sid msgId1 agent).response.error
      = some ("Permission denied: Admin mode requires elevated privileges") ∧
    (processMessage ⟨[(sid, { s with mode := ChatMode.user })], cache⟩
        "set_chat_mode: admin" sid msgId1 agent).agent_invoked = false ∧
    ∃ s1, (processMessage ⟨[(sid, { s with mode := ChatMode.user })], cache⟩
        "set_chat_mode: admin" sid msgId1 agent).iface.sessions = [(sid, s1)] ∧
      s1.mode = ChatMode.user ∧
      ∀ p ∈ adminProbe,
        ∀ iface2 : ChatIface, iface2.sessions = [(sid, s1)] →
          (processMessage iface2 p.1 sid msgId2 agent2).response.status = "error" ∧
          (processMessage iface2 p.1 sid msgId2 agent2).response.error
            = some ("Permission denied: " ++ p.2 ++ " requires admin mode") ∧
          (processMessage iface2 p.1 sid msgId2 agent2).agent_invoked = false := by
  obtain ⟨ha, hb, hc, s1, hd, he, hrm, huid, hdep, hrole⟩ :=
    pm_set_chat_mode_admin_denied ⟨[(sid, { s with mode := ChatMode.user })], cache⟩
      "set_chat_mode: admin" sid msgId1 "set_chat_mode: admin" agent
      { s with mode := ChatMode.user } (lookupSession_single _ _) rfl rfl
  refine ⟨ha, hb, hc, s1, ?_, he, ?_⟩
  · rw [hd]; exact setSession_single _ _ _
  · intro p hp iface2 hif2
    have hlook2 : lookupSession iface2.sessions sid = some s1 := by
      rw [hif2]; exact lookupSession_single _ _
    fin_cases hp
    · obtain ⟨x1, x2, x3, _⟩ := pm_admin_only_denied iface2 "ingest_file: /tmp/a.pdf" sid msgId2
        "ingest_file: /tmp/a.pdf" ["/tmp/a.pdf"] agent2 s1 .ingest_file hlook2 he rfl rfl
      exact ⟨x1, x2, x3⟩
    · obtain ⟨x1, x2, x3, _⟩ := pm_admin_only_denied iface2 "ingest_text: foo" sid msgId2
        "ingest_text: foo" ["foo"] agent2 s1 .ingest_text hlook2 he rfl rfl
      exact ⟨x1, x2, x3⟩
    · obtain ⟨x1, x2, x3, _⟩ := pm_admin_only_denied iface2 "ingest_table: tbl | db.sqlite" sid msgId2
        "ingest_table: tbl | db.sqlite" ["tbl", "db.sqlite"] agent2 s1 .ingest_table hlook2 he rfl rfl
      exact ⟨x1, x2, x3⟩
    · obtain ⟨x1, x2, x3, _⟩ := pm_admin_only_denied iface2 "heal: doc1 | 0.5" sid msgId2
        "heal: doc1 | 0.5" ["doc1", "0.5"] agent2 s1 .heal hlook2 he rfl rfl
      exact ⟨x1, x2, x3⟩
    · obtain ⟨x1, x2, x3, _⟩ := pm_admin_only_denied iface2 "optimize: doc1" sid msgId2
        "optimize: doc1" ["doc1"] agent2 s1 .optimize hlook2 he rfl rfl
      exact ⟨x1, x2, x3⟩
    · obtain ⟨x1, x2, x3, _⟩ := pm_admin_only_denied iface2 "check_health: doc1" sid msgId2
        "check_health: doc1" ["doc1"] agent2 s1 .check_health hlook2 he rfl rfl
      exact ⟨x1, x2, x3⟩

namespace Chat

/-- A concrete USER session used to exercise the permission theorems. -/
def probeSession : ChatSession :=
  ⟨"sess1", "anonymous", "general", "user", ChatMode.user, ResponseMode.concise,
    [], [], SessionContext.empty⟩

/-- A concrete agent oracle that always succeeds. -/
def probeAgent : ChatCommand → ChatSession → Except String AgentResult :=
  fun _ _ => .ok ⟨"success", "ok", none⟩

end Chat

open Chat in
/-- Witness for C6 at a concrete USER session: the elevation is denied, the
mode stays USER, and a follow-up `ingest_text: foo` is denied without an
agent call. -/
theorem C6_user_mode_elevation_denied_witness :
    (processMessage ⟨[("sess1", { probeSession with mode := ChatMode.user })], []⟩
        "set_chat_mode: admin" "sess1" "m1" probeAgent).response.status = "error" ∧
    (processMessage ⟨[("sess1", { probeSession with mode := ChatMode.user })], []⟩
        "set_chat_mode: admin" "sess1" "m1" probeAgent).agent_invoked = false ∧
    ∃ s1, (processMessage ⟨[("sess1", { probeSession with mode := ChatMode.user })], []⟩
        "set_chat_mode: admin" "sess1" "m1" probeAgent).iface.sessions = [("sess1", s1)] ∧
      s1.mode = ChatMode.user ∧
      ∀ iface2 : ChatIface, iface2.sessions = [("sess1", s1)] →
        (processMessage iface2 "ingest_text: foo" "sess1" "m2" probeAgent).response.error
          = some ("Permission denied: " ++ "ingest_text" ++ " requires admin mode") ∧
        (processMessage iface2 "ingest_text: foo" "sess1" "m2" probeAgent).agent_invoked
          = false := by
  obtain ⟨h1, h2, h3, s1, hd, he, hrest⟩ :=
    C6_user_mode_elevation_denied "sess1" "m1" "m2" probeSession [] probeAgent probeAgent
  refine ⟨h1, h3, s1, hd, he, ?_⟩
  intro iface2 hif2
  obtain ⟨y1, y2, y3⟩ := hrest ("ingest_text: foo", "ingest_text")
    (by simp [adminProbe]) iface2 hif2
  exact ⟨y2, y3⟩

open Chat in
/-- C10: the `clear` command resets only the message history, the command
history and the context cache; the session object survives in the map under
the same id, and its chat mode, response mode, user id, department and role
are unchanged; the agent is not invoked. -/
theorem C10_clear_frame (sid msgId : String) (s : ChatSession) (cache : List String)
    (agent : ChatCommand → ChatSession → Except String AgentResult) :
    (processMessage ⟨[(sid, s)], cache⟩ "clear" sid msgId agent).response.status
      = "success" ∧
    (processMessage ⟨[(sid, s)], cache⟩ "clear" sid msgId agent).response.content
      = "✓ Session cleared" ∧
    (processMessage ⟨[(sid, s)], cache⟩ "clear" sid msgId agent).agent_invoked = false ∧
    ∃ s1, (processMessage ⟨[(sid, s)], cache⟩ "clear" sid msgId agent).iface.sessions
        = [(sid, s1)] ∧
      s1.session_id = s.session_id ∧ s1.mode = s.mode ∧
      s1.response_mode = s.response_mode ∧ s1.user_id = s.user_id ∧
      s1.department = s.department ∧ s1.role = s.role ∧
      s1.message_history = [] ∧ s1.command_history = [] ∧
      s1.ctx = SessionContext.empty := by
  have hparse : parseChatText "clear" = .ok ⟨.clear, "clear", []⟩ := rfl
  simp only [processMessage, lookupSession_single, hparse]
  simp [ChatSession.addMessage, ChatSession.addCommand, setSession_single]

namespace Chat

/-- Characters the sanitizer keeps: the class `[a-z0-9_\-.]` of
`_generate_doc_id`. -/
def allowedSanChar (c : Char) : Bool :=
  ('a' ≤ c && c ≤ 'z') || ('0' ≤ c && c ≤ '9') || c = '_' || c = '-' || c = '.'

/-- `re.sub(r'[^a-z0-9_\-.]', '_', ...)`: replace every disallowed character
by an underscore. -/
def sanitizeReplace (l : List Char) : List Char :=
  l.map (fun c => if allowedSanChar c then c else '_')

/-- `re.sub(r'\.[^.]*$', '', ...)`: drop the final dot and everything after
it, when a dot exists. -/
def stripExtension (l : List Char) : List Char :=
  match (l.reverse).dropWhile (fun c => !(c = '.')) with
  | [] => l
  | _ :: before => before.reverse

/-- Recursive worker for `re.sub(r'_+', '_', ...)`: `prev` is the previous
kept character. -/
def collapseAux (prev : Char) : List Char → List Char
  | [] => []
  | c :: cs =>
      if c = '_' ∧ prev = '_' then collapseAux prev cs
      else c :: collapseAux c cs

/-- `re.sub(r'_+', '_', ...)`: collapse runs of underscores (seeded with a
non-underscore previous character). -/
def collapseUnderscores (l : List Char) : List Char := collapseAux ' ' l

/-- The sanitization pipeline of `_generate_doc_id`: lowercase, replace
disallowed characters, strip the extension, collapse underscores, cap at 30
characters. -/
def sanitizeSourceName (source_name : String) : String :=
  String.mk (((collapseUnderscores (stripExtension
    (sanitizeReplace (PyStr.pyLower source_name).data)))).take 30)

/-- The `prefixes` table of `_generate_doc_id` (with default `"doc"`). -/
def prefixFor (source_type : String) : String :=
  if source_type = "file" then "file"
  else if source_type = "text" then "text_user_input"
  else if source_type = "table" then "table"
  else if source_type = "url" then "url"
  else "doc"

/-- A collision-resolution candidate:
`f"{base_doc_id}_{microseconds}_{counter}"`. -/
def suffixedDocId (base : String) (micro counter : ℕ) : String :=
  base ++ "_" ++ PyStr.natStr micro ++ "_" ++ PyStr.natStr counter

/-- The `while doc_id in self._doc_id_cache` loop of `_ensure_unique_doc_id`
with explicit fuel; `micros` is the stream of
`int(time.time() * 1_000_000) % 1_000_000` clock readings, indexed by the
iteration at which they are taken.  Each iteration increments the counter
and rebuilds the candidate from the ORIGINAL base. -/
def ensureLoop (base : String) (cache : List String) (micros : ℕ → ℕ) :
    ℕ → ℕ → String → Option String
  | 0, _, _ => none
  | fuel+1, counter, cand =>
      if cand ∈ cache then
        ensureLoop base cache micros fuel (counter + 1)
          (suffixedDocId base (micros counter) (counter + 1))
      else some cand

/-- `_ensure_unique_doc_id`: run the collision loop (fuel `|cache| + 1`
suffices, as proven below) and add the fresh id to the cache. -/
def ensureUniqueDocId (cache : List String) (micros : ℕ → ℕ) (base : String) :
    Option (String × List String) :=
  (ensureLoop base cache micros (cache.length + 1) 0 base).map
    (fun id => (id, id :: cache))

/-- One ingestion's doc-id request: source type and name, the formatted
`%Y%m%d_%H%M%S` timestamp read from the clock, an optional custom id, and
the microsecond clock stream for the collision loop. -/
structure IngestReq where
  source_type : String
  source_name : String
  timestamp : String
  custom_doc_id : Option String
  micros : ℕ → ℕ

/-- `_generate_doc_id`: a custom id goes straight to
`_ensure_unique_doc_id`; otherwise the base is
`f"{prefix}_{sanitized}_{timestamp}"`. -/
def generateDocId (cache : List String) (r : IngestReq) : Option (String × List String) :=
  match r.custom_doc_id with
  | some c => ensureUniqueDocId cache r.micros c
  | none => ensureUniqueDocId cache r.micros
      (prefixFor r.source_type ++ "_" ++ sanitizeSourceName r.source_name
        ++ "_" ++ r.timestamp)

/-- A sequence of ingestions on one `ChatRAGInterface`: thread the doc-id
cache through the calls and collect the returned ids. -/
def runGenerateDocIds : List String → List IngestReq → Option (List String)
  | _, [] => some []
  | cache, r :: rs =>
      match generateDocId cache r with
      | none => none
      | some (id, cache2) => (runGenerateDocIds cache2 rs).map (fun ids => id :: ids)

end Chat

namespace Chat

/-- Strings with equal character data are equal. -/
lemma string_ext {s1 s2 : String} (h : s1.data = s2.data) : s1 = s2 := by
  cases s1
  cases s2
  exact congrArg String.mk h

/-- Character data of a suffixed candidate. -/
lemma suffixedDocId_data (base : String) (mc k : ℕ) :
    (suffixedDocId base mc k).data
      = base.data ++ '_' :: ((PyStr.natStr mc).data ++ '_' :: (PyStr.natStr k).data) := by
  have hu : ("_" : String).data = ['_'] := rfl
  simp [suffixedDocId, String.data_append, hu]

/-- The base itself is never one of its suffixed candidates. -/
lemma base_ne_suffixedDocId (base : String) (mc k : ℕ) :
    base ≠ suffixedDocId base mc k := by
  intro h
  have hd := congrArg String.data h
  rw [suffixedDocId_data] at hd
  have hlen := congrArg List.length hd
  simp [List.length_append] at hlen

/-- Splitting two equal concatenations at their first underscore. -/
lemma underscore_split : ∀ (l1 l1' l2 l2' : List Char), '_' ∉ l1 → '_' ∉ l1' →
    l1 ++ '_' :: l2 = l1' ++ '_' :: l2' → l1 = l1' ∧ l2 = l2' := by
  intro l1
  induction l1 with
  | nil =>
      intro l1' l2 l2' h1 h1' heq
      cases l1' with
      | nil =>
          simp only [List.nil_append, List.cons.injEq] at heq
          exact ⟨rfl, heq.2⟩
      | cons a t =>
          simp only [List.nil_append, List.cons_append, List.cons.injEq] at heq
          exact absurd (heq.1 ▸ List.mem_cons_self a t) h1'
  | cons a t ih =>
      intro l1' l2 l2' h1 h1' heq
      cases l1' with
      | nil =>
          simp only [List.nil_append, List.cons_append, List.cons.injEq] at heq
          exact absurd (heq.1.symm ▸ List.mem_cons_self a t) h1
      | cons b t2 =>
          simp only [List.cons_append, List.cons.injEq] at heq
          obtain ⟨hab, hrest⟩ := heq
          have h1t : '_' ∉ t := fun hx => h1 (List.mem_cons_of_mem a hx)
          have h1t2 : '_' ∉ t2 := fun hx => h1' (List.mem_cons_of_mem b hx)
          obtain ⟨he1, he2⟩ := ih t2 l2 l2' h1t h1t2 hrest
          exact ⟨by rw [hab, he1], he2⟩

/-- Two suffixed candidates with the same base and equal text carry the same
counter. -/
lemma suffixedDocId_counter_inj (base : String) (m1 k1 m2 k2 : ℕ)
    (h : suffixedDocId base m1 k1 = suffixedDocId base m2 k2) : k1 = k2 := by
  have hd := congrArg String.data h
  rw [suffixedDocId_data, suffixedDocId_data] at hd
  have hd2 := List.append_cancel_left hd
  simp only [List.cons.injEq, true_and] at hd2
  obtain ⟨_, hk⟩ := underscore_split _ _ _ _
    (PyStr.natStr_no_underscore m1) (PyStr.natStr_no_underscore m2) hd2
  exact PyStr.natStr_inj (string_ext hk)

end Chat

namespace Chat

/-- The candidates the collision loop tries, in order, for a given fuel. -/
def triedList (base : String) (micros : ℕ → ℕ) : ℕ → ℕ → String → List String
  | 0, _, _ => []
  | fuel+1, counter, cand =>
      cand :: triedList base micros fuel (counter + 1)
        (suffixedDocId base (micros counter) (counter + 1))

/-- The tried list has one candidate per unit of fuel. -/
lemma triedList_length (base : String) (micros : ℕ → ℕ) :
    ∀ fuel counter cand, (triedList base micros fuel counter cand).length = fuel := by
  intro fuel
  induction fuel with
  | zero => intro counter cand; rfl
  | succ fuel ih =>
      intro counter cand
      simp only [triedList, List.length_cons, ih]

/-- If the loop runs out of fuel, every tried candidate was in the cache. -/
lemma ensureLoop_none_subset (base : String) (cache : List String) (micros : ℕ → ℕ) :
    ∀ fuel counter cand, ensureLoop base cache micros fuel counter cand = none →
      ∀ x ∈ triedList base micros fuel counter cand, x ∈ cache := by
  intro fuel
  induction fuel with
  | zero => intro counter cand _ x hx; cases hx
  | succ fuel ih =>
      intro counter cand hnone x hx
      rw [ensureLoop] at hnone
      by_cases hc : cand ∈ cache
      · rw [if_pos hc] at hnone
        rcases List.mem_cons.mp hx with h | h
        · rw [h]; exact hc
        · exact ih _ _ hnone x h
      · rw [if_neg hc] at hnone
        cases hnone

/-- Every element of the tried list is the seed or a later-counter suffixed
candidate. -/
lemma triedList_shape (base : String) (micros : ℕ → ℕ) :
    ∀ fuel counter cand x, x ∈ triedList base micros fuel counter cand →
      x = cand ∨ ∃ mc k, counter < k ∧ x = suffixedDocId base mc k := by
  intro fuel
  induction fuel with
  | zero => intro counter cand x hx; cases hx
  | succ fuel ih =>
      intro counter cand x hx
      rcases List.mem_cons.mp hx with h | h
      · exact Or.inl h
      · rcases ih _ _ x h with h2 | ⟨mc, k, hk, hx2⟩
        · exact Or.inr ⟨micros counter, counter + 1, Nat.lt_succ_self _, h2⟩
        · exact Or.inr ⟨mc, k, Nat.lt_of_succ_lt hk, hx2⟩

/-- Seeded with the base or an already-counted suffixed candidate, the tried
candidates are pairwise distinct. -/
lemma triedList_nodup (base : String) (micros : ℕ → ℕ) :
    ∀ fuel counter cand,
      (cand = base ∨ ∃ mc j, j ≤ counter ∧ cand = suffixedDocId base mc j) →
      (triedList base micros fuel counter cand).Nodup := by
  intro fuel
  induction fuel with
  | zero => intro counter cand _; exact List.nodup_nil
  | succ fuel ih =>
      intro counter cand hshape
      rw [triedList]
      refine List.nodup_cons.mpr ⟨?_, ih _ _ ?_⟩
      · intro hmem
        rcases triedList_shape base micros fuel (counter + 1)
            (suffixedDocId base (micros counter) (counter + 1)) cand hmem with h | ⟨mc, k, hk, hx⟩
        · rcases hshape with hb | ⟨mc2, j, hj, hcand⟩
          · exact base_ne_suffixedDocId base (micros counter) (counter + 1) (hb ▸ h)
          · have hkj := suffixedDocId_counter_inj base mc2 j (micros counter) (counter + 1)
              (hcand ▸ h)
            omega
        · rcases hshape with hb | ⟨mc2, j, hj, hcand⟩
          · exact base_ne_suffixedDocId base mc k (hb ▸ hx)
          · have hkj := suffixedDocId_counter_inj base mc2 j mc k (hcand ▸ hx)
            omega
      · exact Or.inr ⟨micros counter, counter + 1, le_refl _, rfl⟩

/-- With fuel `|cache| + 1` the collision loop always finds a fresh id. -/
lemma ensureLoop_terminates (base : String) (cache : List String) (micros : ℕ → ℕ) :
    ensureLoop base cache micros (cache.length + 1) 0 base ≠ none := by
  intro hnone
  have hsub : ∀ x ∈ triedList base micros (cache.length + 1) 0 base, x ∈ cache :=
    ensureLoop_none_subset base cache micros _ _ _ hnone
  have hnd : (triedList base micros (cache.length + 1) 0 base).Nodup :=
    triedList_nodup base micros _ _ _ (Or.inl rfl)
  have hle : (triedList base micros (cache.length + 1) 0 base).length ≤ cache.length :=
    (List.subperm_of_subset hnd hsub).length_le
  rw [triedList_length] at hle
  omega

/-- Whatever the loop returns is not in the cache. -/
lemma ensureLoop_fresh (base : String) (cache : List String) (micros : ℕ → ℕ) :
    ∀ fuel counter cand id, ensureLoop base cache micros fuel counter cand = some id →
      id ∉ cache := by
  intro fuel
  induction fuel with
  | zero => intro counter cand id h; cases h
  | succ fuel ih =>
      intro counter cand id h
      rw [ensureLoop] at h
      by_cases hc : cand ∈ cache
      · rw [if_pos hc] at h
        exact ih _ _ _ h
      · rw [if_neg hc] at h
        cases h
        exact hc

/-- `_ensure_unique_doc_id` always succeeds, returns an id that is fresh
with respect to the cache, and conses it onto the cache. -/
lemma ensureUniqueDocId_spec (cache : List String) (micros : ℕ → ℕ) (base : String) :
    ∃ id, ensureUniqueDocId cache micros base = some (id, id :: cache) ∧ id ∉ cache := by
  cases hloop : ensureLoop base cache micros (cache.length + 1) 0 base with
  | none => exact absurd hloop (ensureLoop_terminates base cache micros)
  | some id =>
      refine ⟨id, ?_, ensureLoop_fresh base cache micros _ _ _ _ hloop⟩
      simp [ensureUniqueDocId, hloop]

end Chat

namespace Chat

/-- Running any sequence of doc-id generations from any cache succeeds and
yields pairwise-distinct ids, none of which was already cached. -/
lemma runGenerateDocIds_spec :
    ∀ (reqs : List IngestReq) (cache : List String),
      ∃ ids, runGenerateDocIds cache reqs = some ids ∧ ids.Nodup ∧
        ∀ id ∈ ids, id ∉ cache := by
  intro reqs
  induction reqs with
  | nil =>
      intro cache
      exact ⟨[], rfl, List.nodup_nil, fun id h => absurd h (List.not_mem_nil id)⟩
  | cons r rs ih =>
      intro cache
      have hgen : ∃ id, generateDocId cache r = some (id, id :: cache) ∧ id ∉ cache := by
        cases hc : r.custom_doc_id with
        | some c =>
            obtain ⟨id, h1, h2⟩ := ensureUniqueDocId_spec cache r.micros c
            exact ⟨id, by simp [generateDocId, hc, h1], h2⟩
        | none =>
            obtain ⟨id, h1, h2⟩ := ensureUniqueDocId_spec cache r.micros
              (prefixFor r.source_type ++ "_" ++ sanitizeSourceName r.source_name
                ++ "_" ++ r.timestamp)
            exact ⟨id, by simp [generateDocId, hc, h1], h2⟩
      obtain ⟨id, hgen2, hfresh⟩ := hgen
      obtain ⟨ids2, hrun, hnd, hmem⟩ := ih (id :: cache)
      refine ⟨id :: ids2, ?_, ?_, ?_⟩
      · rw [runGenerateDocIds, hgen2]
        simp [hrun]
      · refine List.nodup_cons.mpr ⟨?_, hnd⟩
        intro hmem2
        exact hmem id hmem2 (List.mem_cons_self id cache)
      · intro x hx
        rcases List.mem_cons.mp hx with h | h
        · rw [h]; exact hfresh
        · exact fun hxc => hmem x h (List.mem_cons_of_mem id hxc)

end Chat

open Chat in
/-- C7: over any sequence of ingestions on one chat interface (any mix of
source types, names, timestamps, custom ids and microsecond clock readings
— including identical timestamps), `_generate_doc_id` always returns, the
returned doc_ids are pairwise distinct, and none collides with an id already
in the interface's cache; the collision loop resolves every clash within at
most `|cache| + 1` probes by appending `_{microseconds}_{counter}`. -/
theorem C7_generated_docids_distinct (reqs : List IngestReq) (cache : List String) :
    (∃ ids, runGenerateDocIds cache reqs = some ids ∧ ids.Nodup ∧
      ∀ id ∈ ids, id ∉ cache) ∧
    (∀ (base : String) (micros : ℕ → ℕ),
      ensureLoop base cache micros (cache.length + 1) 0 base ≠ none) := by
  exact ⟨runGenerateDocIds_spec reqs cache,
    fun base micros => ensureLoop_terminates base cache micros⟩
